import Mathlib

/- Verification development for the llm_map backend (src/backend/backend.py):
a shallow embedding of the natural-language-to-SQL pipeline, the response
normalizers, the intent router and the cluster-state post-processing,
together with theorems checking the claims of the specification against the code.
Python strings are modelled as lists of characters (ASCII model of case
mapping, whitespace and character classes). -/

namespace LlmMap

/-- Str models a Python string as a list of characters. -/
abbrev Str := List Char

/-- pyIsSpace models the ASCII whitespace of Python, as used by str.strip,
str.split and the regex class \s. -/
def pyIsSpace (c : Char) : Bool :=
  c = ' ' || c = '\t' || c = '\n' || c = '\r' || c = '\x0b' || c = '\x0c'

/-- dropTrailWs removes trailing whitespace (the right half of str.strip). -/
def dropTrailWs (s : Str) : Str := (s.reverse.dropWhile pyIsSpace).reverse

/-- pyStrip models Python str.strip with no arguments. -/
def pyStrip (s : Str) : Str := dropTrailWs (s.dropWhile pyIsSpace)

/-- fence3 is the markdown fence marker. -/
def fence3 : Str := ("```".toList)

/-- fenceSql is the opening marker of a sql markdown fence. -/
def fenceSql : Str := ("```sql".toList)

/-- fenceJson is the opening marker of a json markdown fence. -/
def fenceJson : Str := ("```json".toList)

/-- stripLeadFence models re.sub of an anchored pattern tag followed by \s*
against the empty string, applied to a string: if the tag is a prefix, the
tag and the following whitespace run are removed. -/
def stripLeadFence (tag : Str) (s : Str) : Str :=
  if tag.isPrefixOf s then (s.drop tag.length).dropWhile pyIsSpace else s

/-- stripTrailFence models re.sub of the end-anchored pattern \s* followed by
a fence marker against the empty string, for strings with no trailing
whitespace (both call sites apply it to stripped strings): if the string
ends with the fence, the fence and the whitespace run before it are
removed. -/
def stripTrailFence (s : Str) : Str :=
  if fence3.isSuffixOf s then
    ((s.reverse.drop fence3.length).dropWhile pyIsSpace).reverse
  else s

/-- sqlNormalize models lines 240-243 of backend.py: strip the response, then
remove a leading sql markdown fence and a trailing fence. -/
def sqlNormalize (response : Str) : Str :=
  stripTrailFence (stripLeadFence fenceSql (pyStrip response))

/-- isSubstrB models the Python operator in for strings: substring test. -/
def isSubstrB (n : Str) : Str → Bool
  | [] => n.isEmpty
  | c :: r => n.isPrefixOf (c :: r) || isSubstrB n r

/-- lowerStr models str.lower (ASCII). -/
def lowerStr (s : Str) : Str := s.map Char.toLower

/-- upperStr models str.upper (ASCII). -/
def upperStr (s : Str) : Str := s.map Char.toUpper

/-- replaceFirst models Python str.replace(old, new, 1): the leftmost
occurrence of old is replaced by new. -/
def replaceFirst (old new : Str) : Str → Str
  | [] => if old.isPrefixOf ([] : Str) then new else []
  | c :: r =>
    if old.isPrefixOf (c :: r) then new ++ (c :: r).drop old.length
    else c :: replaceFirst old new r

/-- isWordChar models the regex class \w (ASCII). -/
def isWordChar (c : Char) : Bool := c.isAlphanum || c = '_'

/-- plLit is the literal part of the primary-layer comment pattern of
backend.py line 247. -/
def plLit : Str := ("-- primary_layer: ".toList)

/-- extract_primary_layer models re.search of the primary-layer pattern
(the literal followed by a captured \w+ group) at lines 247-248 of
backend.py: at the leftmost position where the literal is followed by at
least one word character, the maximal word-character run is the captured
group; when no position matches, the result is None. -/
def extract_primary_layer : Str → Option Str
  | [] => none
  | c :: r =>
    if plLit.isPrefixOf (c :: r) then
      let w := ((c :: r).drop plLit.length).takeWhile isWordChar
      if w = [] then extract_primary_layer r else some w
    else extract_primary_layer r

/-- idLit is the word searched case-insensitively at line 250. -/
def idLit : Str := ("id".toList)

/-- selLit is the keyword replaced at line 251. -/
def selLit : Str := ("SELECT".toList)

/-- selInjLit is the replacement text of line 251. -/
def selInjLit : Str := ("SELECT id, ".toList)

/-- idInject models lines 250-251 of backend.py: when "id" does not occur in
the lowercased statement, the first occurrence of "SELECT" is replaced by
"SELECT id, ". -/
def idInject (s : Str) : Str :=
  if isSubstrB idLit (lowerStr s) then s
  else replaceFirst selLit selInjLit s

/-- envPre is the head of the wrapping envelope of line 252. -/
def envPre : Str := ("SELECT id FROM (".toList)

/-- envPost is the tail of the wrapping envelope of line 252. -/
def envPost : Str := (") AS subquery;".toList)

/-- sqlErrorMsg is the fallback return value of line 255. -/
def sqlErrorMsg : Str := ("ERROR: SQL query not found in the response.".toList)

/-- sqlEnvelope is the envelope of line 252 around an inner statement. -/
def sqlEnvelope (inner : Str) : Str := envPre ++ inner ++ envPost

/-- natural_language_to_sql models lines 233-255 of backend.py, taking the
raw generator response text as input (prompt construction and the network
call are external collaborators). It returns the executable SQL statement
and the extracted primary layer. An empty response is falsy and yields the
error string; the slice sql_query[:-1] is List.dropLast. -/
def natural_language_to_sql (response : Str) : Str × Option Str :=
  if response = [] then (sqlErrorMsg, none)
  else
    let q := sqlNormalize response
    let primary := extract_primary_layer q
    let q2 := idInject q
    (envPre ++ q2.dropLast ++ envPost, primary)

/-- generatedStatement is the statement the pipeline wraps in the envelope:
the fence-stripped response after the id-guaranteeing injection. -/
def generatedStatement (response : Str) : Str := idInject (sqlNormalize response)

/-- minusTrailingSemicolon removes a trailing semicolon when one is
present. -/
def minusTrailingSemicolon (s : Str) : Str :=
  if s.getLast? = some (';') then s.dropLast else s

/-- Json models the Python values produced by json.loads on the JSON subset
exercised by this backend: null (Python None), booleans, integer numbers,
strings, arrays (Python lists) and objects (Python dicts). -/
inductive Json where
  | null : Json
  | bool (b : Bool) : Json
  | num (n : Int) : Json
  | str (s : Str) : Json
  | arr (xs : List Json) : Json
  | obj (kvs : List (Str × Json)) : Json

/-- hexVal gives the value of a hexadecimal digit. -/
def hexVal (c : Char) : Option Nat :=
  if c.isDigit then some (c.toNat - 48)
  else if 'a' ≤ c ∧ c ≤ 'f' then some (c.toNat - 87)
  else if 'A' ≤ c ∧ c ≤ 'F' then some (c.toNat - 70)
  else none

/-- pStr parses the body of a JSON string after the opening quote, handling
the standard escapes. -/
def pStr : Nat → Str → Option (Str × Str)
  | 0, _ => none
  | _, [] => none
  | fuel + 1, c :: r =>
    if c = '\"' then some ([], r)
    else if c = '\\' then
      match r with
      | [] => none
      | e :: r2 =>
        if e = '\"' ∨ e = '\\' ∨ e = '/' then
          (pStr fuel r2).map (fun p => (e :: p.1, p.2))
        else if e = 'n' then (pStr fuel r2).map (fun p => ('\n' :: p.1, p.2))
        else if e = 't' then (pStr fuel r2).map (fun p => ('\t' :: p.1, p.2))
        else if e = 'r' then (pStr fuel r2).map (fun p => ('\r' :: p.1, p.2))
        else if e = 'b' then (pStr fuel r2).map (fun p => ('\x08' :: p.1, p.2))
        else if e = 'f' then (pStr fuel r2).map (fun p => ('\x0c' :: p.1, p.2))
        else if e = 'u' then
          match r2 with
          | h1 :: h2 :: h3 :: h4 :: r3 =>
            match hexVal h1, hexVal h2, hexVal h3, hexVal h4 with
            | some a, some b, some c2, some d =>
              (pStr fuel r3).map
                (fun p => (Char.ofNat (((a * 16 + b) * 16 + c2) * 16 + d) :: p.1, p.2))
            | _, _, _, _ => none
          | _ => none
        else none
    else (pStr fuel r).map (fun p => (c :: p.1, p.2))

/-- digitsToNat reads a run of decimal digits. -/
def digitsToNat (ds : Str) : Nat :=
  ds.foldl (fun a c => a * 10 + (c.toNat - 48)) 0

/-- pNum parses a JSON integer literal; a fraction or exponent suffix is
outside the modeled subset (json.loads would produce a float there). -/
def pNum (s : Str) : Option (Json × Str) :=
  let neg := s.head? = some ('-')
  let s1 := if neg then s.drop 1 else s
  let ds := s1.takeWhile Char.isDigit
  let rest := s1.dropWhile Char.isDigit
  if ds = [] then none
  else if ds.length > 1 ∧ ds.head? = some ('0') then none
  else
    let v : Int := (digitsToNat ds : Int)
    let j := Json.num (if neg then -v else v)
    match rest.head? with
    | some c => if c = '.' ∨ c = 'e' ∨ c = 'E' then none else some (j, rest)
    | none => some (j, rest)

mutual

/-- pVal parses one JSON value, fuel-bounded. -/
def pVal : Nat → Str → Option (Json × Str)
  | 0, _ => none
  | fuel + 1, s =>
    match s.dropWhile pyIsSpace with
    | [] => none
    | 'n' :: 'u' :: 'l' :: 'l' :: r => some (Json.null, r)
    | 't' :: 'r' :: 'u' :: 'e' :: r => some (Json.bool true, r)
    | 'f' :: 'a' :: 'l' :: 's' :: 'e' :: r => some (Json.bool false, r)
    | '\"' :: r => (pStr (fuel + 1) r).map (fun p => (Json.str p.1, p.2))
    | '[' :: r =>
      (match r.dropWhile pyIsSpace with
       | ']' :: r2 => some (Json.arr [], r2)
       | _ => pArrLoop fuel [] r)
    | '\x7b' :: r =>
      (match r.dropWhile pyIsSpace with
       | '\x7d' :: r2 => some (Json.obj [], r2)
       | _ => pObjLoop fuel [] r)
    | c :: r => if c.isDigit ∨ c = '-' then pNum (c :: r) else none

/-- pArrLoop parses the comma-separated elements of an array body. -/
def pArrLoop : Nat → List Json → Str → Option (Json × Str)
  | 0, _, _ => none
  | fuel + 1, acc, s =>
    match pVal fuel s with
    | none => none
    | some (v, s2) =>
      match s2.dropWhile pyIsSpace with
      | ',' :: r2 => pArrLoop fuel (v :: acc) r2
      | ']' :: r2 => some (Json.arr (v :: acc).reverse, r2)
      | _ => none

/-- pObjLoop parses the comma-separated members of an object body. -/
def pObjLoop : Nat → List (Str × Json) → Str → Option (Json × Str)
  | 0, _, _ => none
  | fuel + 1, acc, s =>
    match s.dropWhile pyIsSpace with
    | '\"' :: r =>
      (match pStr (fuel + 1) r with
       | none => none
       | some (k, s2) =>
         match s2.dropWhile pyIsSpace with
         | ':' :: r2 =>
           (match pVal fuel r2 with
            | none => none
            | some (v, s3) =>
              match s3.dropWhile pyIsSpace with
              | ',' :: r3 => pObjLoop fuel ((k, v) :: acc) r3
              | '\x7d' :: r3 => some (Json.obj ((k, v) :: acc).reverse, r3)
              | _ => none)
         | _ => none)
    | _ => none

end

/-- jsonLoads models Python json.loads on the modeled JSON subset: leading
and trailing whitespace is allowed, any other trailing data is an error;
raising JSONDecodeError is modelled as none. Floats, NaN and Infinity are
outside the modeled subset. -/
def jsonLoads (s : Str) : Option Json :=
  match pVal (2 * s.length + 2) s with
  | some (v, rest) => if rest.dropWhile pyIsSpace = [] then some v else none
  | none => none

/-- PyErr models the exceptions crossing the embedded function boundaries;
payloads (messages, HTTP status codes) are not modelled. httpError stands
for the fastapi HTTPException. -/
inductive PyErr where
  | httpError : PyErr
  | typeError : PyErr
  | keyError : PyErr
  | attributeError : PyErr
  | indexError : PyErr

/-- dictGet models Python dict lookup on an insertion-ordered association
list; keys are unique because dictSet overwrites in place. -/
def dictGet : List (Str × Json) → Str → Option Json
  | [], _ => none
  | (k, v) :: r, key => if k = key then some v else dictGet r key

/-- pyGet models dict.get(key): a missing key yields None (Json.null). -/
def pyGet (kvs : List (Str × Json)) (key : Str) : Json :=
  (dictGet kvs key).getD Json.null

/-- dictSet models dict item assignment: an existing key is overwritten in
place, a new key is appended at the end. -/
def dictSet : List (Str × Json) → Str → Json → List (Str × Json)
  | [], key, v => [(key, v)]
  | (k, w) :: r, key, v =>
    if k = key then (k, v) :: r else (k, w) :: dictSet r key v

/-- cleanJson models lines 267-271 of backend.py: strip the response and,
only when it starts with a fence marker, remove a leading json fence and a
trailing fence. -/
def cleanJson (response : Str) : Str :=
  if fence3.isPrefixOf (pyStrip response) then
    stripTrailFence (stripLeadFence fenceJson (pyStrip response))
  else pyStrip response

/-- pyFind models str.find for one character: index of the first occurrence,
or -1. -/
def pyFind (s : Str) (c : Char) : Int :=
  match s.findIdx? (fun x => x = c) with
  | some i => (i : Int)
  | none => -1

/-- pyRfind models str.rfind for one character. -/
def pyRfind (s : Str) (c : Char) : Int :=
  match s.reverse.findIdx? (fun x => x = c) with
  | some i => ((s.length - 1 - i : Nat) : Int)
  | none => -1

/-- parse_ollama_core models lines 273-291 of backend.py applied to the
cleaned text: the direct json.loads attempt; on failure the except branch
re-parses the very same string (json.loads raises again and the outer
handler maps the JSONDecodeError to an HTTP 500 error). The wrapper-field
extraction is embedded structurally as in the source, including the rfind
plus-one index; every arm of the inner match below other than the repeated
failure is unreachable, and in the non-dict arm the error kind stands for
whichever exception the subscript-free membership test and subscript would
raise there. -/
def parse_ollama_core (cleaned : Str) : Except PyErr Json :=
  match jsonLoads cleaned with
  | some v => Except.ok v
  | none =>
    match jsonLoads cleaned with
    | none => Except.error PyErr.httpError
    | some (Json.obj kvs) =>
      match dictGet kvs ("response".toList) with
      | none => Except.error PyErr.httpError
      | some (Json.str txt) =>
        let js := pyFind txt ('\x7b')
        let je := pyRfind txt ('\x7d') + 1
        if js = -1 ∨ je = -1 then Except.error PyErr.httpError
        else
          match jsonLoads ((txt.take je.toNat).drop js.toNat) with
          | some v => Except.ok v
          | none => Except.error PyErr.httpError
      | some _ => Except.error PyErr.attributeError
    | some _ => Except.error PyErr.typeError

/-- parse_ollama_response models lines 264-291 of backend.py. -/
def parse_ollama_response (response : Str) : Except PyErr Json :=
  parse_ollama_core (cleanJson response)

/-- simpleNormalize is the comparison normalizer named by claim C10, written
from the words of the claim: strip a markdown fence and directly JSON-parse the
result, raising on parse failure. -/
def simpleNormalize (response : Str) : Except PyErr Json :=
  match jsonLoads (cleanJson response) with
  | some v => Except.ok v
  | none => Except.error PyErr.httpError

/-- isErr observes whether a parse outcome is an exception. -/
def isErr : Except PyErr Json → Bool
  | Except.error _ => true
  | Except.ok _ => false

mutual

/-- beqJson models Python equality on the modelled values. -/
def beqJson : Json → Json → Bool
  | Json.null, Json.null => true
  | Json.bool a, Json.bool b => a = b
  | Json.num a, Json.num b => a = b
  | Json.str a, Json.str b => a = b
  | Json.arr a, Json.arr b => beqJsonList a b
  | Json.obj a, Json.obj b => beqJsonKvs a b
  | _, _ => false

/-- beqJsonList compares element lists. -/
def beqJsonList : List Json → List Json → Bool
  | [], [] => true
  | x :: xs, y :: ys => beqJson x y && beqJsonList xs ys
  | _, _ => false

/-- beqJsonKvs compares key-value lists. -/
def beqJsonKvs : List (Str × Json) → List (Str × Json) → Bool
  | [], [] => true
  | (k, v) :: xs, (k2, v2) :: ys => decide (k = k2) && beqJson v v2 && beqJsonKvs xs ys
  | _, _ => false

end

/-- CState models the module-level CLUSTER_STATE dict; keys are the Python
values used as layer names. -/
abbrev CState := List (Json × Bool)

/-- stGet models reading an entry of CLUSTER_STATE. -/
def stGet : CState → Json → Option Bool
  | [], _ => none
  | (k, b) :: r, key => if beqJson k key then some b else stGet r key

/-- stSet models the assignment of an entry of CLUSTER_STATE: an existing
key keeps its place (and its originally inserted key object), a new key is
appended. -/
def stSet : CState → Json → Bool → CState
  | [], key, b => [(key, b)]
  | (k, w) :: r, key, b =>
    if beqJson k key then (k, b) :: r else (k, w) :: stSet r key b

/-- hashableJson: Python lists and dicts are unhashable, so using one as a
dict key raises TypeError. -/
def hashableJson : Json → Bool
  | Json.arr _ => false
  | Json.obj _ => false
  | _ => true

/-- clusterParams models the parameters lookup with an empty-dict default
(lines 298-299); a non-dict stored value (including None) makes the
subsequent .get raise AttributeError. -/
def clusterParams (kvs : List (Str × Json)) : Except PyErr (List (Str × Json)) :=
  match dictGet kvs ("parameters".toList) with
  | none => Except.ok []
  | some (Json.obj p) => Except.ok p
  | some _ => Except.error PyErr.attributeError

/-- intentIsCluster models the test of line 295: action_json.get("intent")
compares equal to the string CLUSTER (a missing key yields None, which is
not equal to any string). -/
def intentIsCluster (kvs : List (Str × Json)) : Bool :=
  beqJson (pyGet kvs ("intent".toList)) (Json.str ("CLUSTER".toList))

/-- handle_cluster_core is the body of handle_cluster_action after the
intent test (lines 298-310), taking the outcome of the parameters lookup:
the ADD / REMOVE comparison chain, the state assignment (raising TypeError
on an unhashable layer key) and the restore_original attachment. -/
def handle_cluster_core (kvs : List (Str × Json)) (pr : Except PyErr (List (Str × Json)))
    (st : CState) : Except PyErr (Json × CState) :=
  match pr with
  | Except.error e => Except.error e
  | Except.ok pkvs =>
    if beqJson (pyGet pkvs ("action".toList)) (Json.str ("ADD".toList)) then
      (if hashableJson (pyGet pkvs ("layer".toList)) then
         Except.ok (Json.obj kvs, stSet st (pyGet pkvs ("layer".toList)) true)
       else Except.error PyErr.typeError)
    else if beqJson (pyGet pkvs ("action".toList)) (Json.str ("REMOVE".toList)) then
      (if hashableJson (pyGet pkvs ("layer".toList)) then
         Except.ok
           (Json.obj (dictSet kvs ("restore_original".toList)
             (Json.obj [(("layer".toList), pyGet pkvs ("layer".toList)),
                        (("action".toList), Json.str ("ADD".toList))])),
            stSet st (pyGet pkvs ("layer".toList)) false)
       else Except.error PyErr.typeError)
    else Except.ok (Json.obj kvs, st)

/-- handle_cluster_action models lines 293-310 of backend.py with the
module-level CLUSTER_STATE passed and returned explicitly. A non-dict
command raises AttributeError at the .get call; a command whose intent is
not CLUSTER is returned unchanged. -/
def handle_cluster_action (cmd : Json) (st : CState) : Except PyErr (Json × CState) :=
  match cmd with
  | Json.obj kvs =>
    if intentIsCluster kvs = false then Except.ok (Json.obj kvs, st)
    else handle_cluster_core kvs (clusterParams kvs) st
  | _ => Except.error PyErr.attributeError

/-- resultCmd projects the returned command out of a handler result. -/
def resultCmd (r : Except PyErr (Json × CState)) : Except PyErr Json :=
  r.map Prod.fst

/-- phraseLit is the verbose-model marker phrase of backend.py line 874. -/
def phraseLit : Str := ("then the output would be".toList)

/-- squoteCh is the single-quote character of the quoted-word pattern. -/
def squoteCh : Char := '\x27'

/-- quotedUpperSearch models re.search for a single-quoted run of uppercase
letters (line 876): the leftmost quote followed by a nonempty maximal
uppercase run and a closing quote yields the run. -/
def quotedUpperSearch : Str → Option Str
  | [] => none
  | c :: r =>
    if c = squoteCh then
      let w := r.takeWhile Char.isUpper
      if w ≠ [] ∧ (r.drop w.length).head? = some squoteCh then some w
      else quotedUpperSearch r
    else quotedUpperSearch r

/-- wsplitGo is the accumulator worker of wsplit. -/
def wsplitGo (cur : Str) : Str → List Str
  | [] => if cur = [] then [] else [cur.reverse]
  | c :: r =>
    if pyIsSpace c then
      (if cur = [] then wsplitGo [] r else cur.reverse :: wsplitGo [] r)
    else wsplitGo (c :: cur) r

/-- wsplit models Python str.split() with no arguments: maximal runs of
non-whitespace characters. -/
def wsplit (s : Str) : List Str := wsplitGo [] s

/-- normalize_intent_text models lines 863-869 of backend.py: json.loads on
the response with the JSONDecodeError / KeyError fallback to the raw
response; a non-dict parse result raises TypeError at the subscript and a
non-string response field raises AttributeError at .strip, and neither is
caught by the inner handler. -/
def normalize_intent_text (response : Str) : Except PyErr Str :=
  match jsonLoads response with
  | none => Except.ok (pyStrip response)
  | some (Json.obj kvs) =>
    (match dictGet kvs ("response".toList) with
     | none => Except.ok (pyStrip response)
     | some (Json.str s) => Except.ok (pyStrip s)
     | some _ => Except.error PyErr.attributeError)
  | some _ => Except.error PyErr.typeError

/-- firstTokenUpper models the expression at lines 881 and 884 of
backend.py: the first whitespace-delimited token uppercased, guarded by the
truthiness of the text. -/
def firstTokenUpper (t : Str) : Except PyErr Str :=
  if t = [] then Except.ok ("ACTION".toList)
  else
    match wsplit t with
    | [] => Except.error PyErr.indexError
    | w :: _ => Except.ok (upperStr w)

/-- intent_from_text models lines 874-884 of backend.py: quoted-capital-word
extraction when the marker phrase occurs in the lowercased text, otherwise
the first-token logic. -/
def intent_from_text (t : Str) : Except PyErr Str :=
  if isSubstrB phraseLit (lowerStr t) then
    match quotedUpperSearch t with
    | some w => Except.ok w
    | none => firstTokenUpper t
  else firstTokenUpper t

/-- finalizeIntent models lines 886-892 of backend.py: strip non-alphabetic
characters, then default to ACTION when the result is not a known
intent. -/
def finalizeIntent (i : Str) : Str :=
  if i.filter Char.isAlpha = ("ACTION".toList) ∨ i.filter Char.isAlpha = ("FILTER".toList)
      ∨ i.filter Char.isAlpha = ("HELP".toList)
  then i.filter Char.isAlpha else ("ACTION".toList)

/-- routeCore models the body of the outer try of route_by_intent (lines
854-900) given the gateway response text: an empty (falsy) response
raises HTTPException, then normalization and validation run. -/
def routeCore (response : Str) : Except PyErr Str :=
  if response = [] then Except.error PyErr.httpError
  else
    match normalize_intent_text response with
    | Except.error e => Except.error e
    | Except.ok t =>
      match intent_from_text t with
      | Except.error e => Except.error e
      | Except.ok i => Except.ok (finalizeIntent i)

/-- route_by_intent models lines 852-905 of backend.py, taking the outcome
of the gateway call as input: any exception from the gateway call or from
the body is caught by the outer handler, which returns ACTION. -/
def route_by_intent (gw : Except PyErr Str) : Str :=
  match gw with
  | Except.error _ => ("ACTION".toList)
  | Except.ok r =>
    match routeCore r with
    | Except.ok i => i
    | Except.error _ => ("ACTION".toList)

/-! Helper lemmas shared by the claim theorems. -/

theorem isEmpty_true_iff {l : Str} : l.isEmpty = true ↔ l = [] := by
  cases l <;> simp

theorem head?_dropWhile_false {p : Char → Bool} {l : Str} {c : Char}
    (h : (l.dropWhile p).head? = some c) : p c = false := by
  have hx := List.head?_dropWhile_not p l
  rw [h] at hx
  exact hx

theorem isPrefixOf_self_append (l t : Str) : l.isPrefixOf (l ++ t) = true :=
  List.isPrefixOf_iff_prefix.mpr (List.prefix_append l t)

theorem isSuffixOf_self_append (l t : Str) : t.isSuffixOf (l ++ t) = true :=
  List.isSuffixOf_iff_suffix.mpr (List.suffix_append l t)

theorem isSubstrB_iff (n : Str) (h : Str) :
    isSubstrB n h = true ↔ ∃ a b, h = a ++ n ++ b := by
  induction h with
  | nil =>
    rw [show isSubstrB n [] = n.isEmpty from rfl, isEmpty_true_iff]
    constructor
    · rintro rfl
      exact ⟨[], [], rfl⟩
    · rintro ⟨a, b, hab⟩
      rcases List.append_eq_nil.mp hab.symm with ⟨han, -⟩
      rcases List.append_eq_nil.mp han with ⟨-, hn⟩
      exact hn
  | cons c r ih =>
    rw [show isSubstrB n (c :: r) = (n.isPrefixOf (c :: r) || isSubstrB n r) from rfl,
        Bool.or_eq_true]
    constructor
    · rintro (hp | hs)
      · rcases List.isPrefixOf_iff_prefix.mp hp with ⟨t, ht⟩
        exact ⟨[], t, by simpa using ht.symm⟩
      · rcases ih.mp hs with ⟨a, b, hab⟩
        exact ⟨c :: a, b, by simp [hab]⟩
    · rintro ⟨a, b, hab⟩
      cases a with
      | nil =>
        left
        exact List.isPrefixOf_iff_prefix.mpr ⟨b, by simpa using hab.symm⟩
      | cons x xs =>
        right
        injection hab with hcx hr
        exact ih.mpr ⟨xs, b, hr⟩

theorem replaceFirst_first (old new : Str) :
    ∀ a b : Str,
      (∀ j, j < a.length → old.isPrefixOf ((a ++ old ++ b).drop j) = false) →
      replaceFirst old new (a ++ old ++ b) = a ++ new ++ b := by
  intro a
  induction a with
  | nil =>
    intro b _
    simp only [List.nil_append]
    cases old with
    | nil =>
      cases b with
      | nil => simp only [List.append_nil]; rfl
      | cons x xs =>
        show replaceFirst [] new (x :: xs) = new ++ x :: xs
        rw [show replaceFirst [] new (x :: xs)
              = if ([] : Str).isPrefixOf (x :: xs) then new ++ (x :: xs).drop ([] : Str).length
                else x :: replaceFirst [] new xs from rfl]
        simp [List.isPrefixOf]
    | cons o os =>
      rw [List.cons_append,
          show replaceFirst (o :: os) new (o :: (os ++ b))
            = if (o :: os).isPrefixOf (o :: (os ++ b))
              then new ++ (o :: (os ++ b)).drop (o :: os).length
              else o :: replaceFirst (o :: os) new (os ++ b) from rfl]
      have hpre : (o :: os).isPrefixOf (o :: (os ++ b)) = true := by
        rw [show o :: (os ++ b) = (o :: os) ++ b from rfl]
        exact isPrefixOf_self_append _ _
      rw [hpre]
      simp only [if_true]
      rw [show o :: (os ++ b) = (o :: os) ++ b from rfl, List.drop_left]
  | cons x a' ih =>
    intro b hfirst
    have h0 : old.isPrefixOf (x :: (a' ++ old ++ b)) = false := by
      have hx := hfirst 0 (by simp)
      simpa using hx
    rw [show (x :: a') ++ old ++ b = x :: (a' ++ old ++ b) from rfl]
    cases hold : old with
    | nil =>
      rw [hold] at h0
      simp [List.isPrefixOf] at h0
    | cons o os =>
      rw [← hold]
      rw [show replaceFirst old new (x :: (a' ++ old ++ b))
            = if old.isPrefixOf (x :: (a' ++ old ++ b))
              then new ++ (x :: (a' ++ old ++ b)).drop old.length
              else x :: replaceFirst old new (a' ++ old ++ b) from by rw [hold]; rfl]
      rw [h0]
      simp only [Bool.false_eq_true, if_false]
      rw [ih b (fun j hj => by
        have hx := hfirst (j + 1) (by simpa using Nat.succ_lt_succ hj)
        simpa using hx)]
      rfl

/-! Claim C1: the envelope invariant of the SQL pipeline. -/

/-- C1: for every non-empty generator response, natural_language_to_sql
returns the envelope wrapped around the fence-stripped, id-injected
statement minus its final character; the result always begins with the
envelope head and ends with the envelope tail (the envelope pattern), and
whenever that statement ends with a semicolon the inner part is exactly the
statement minus its trailing semicolon. -/
theorem C1_envelope_invariant (r : Str) (hr : r ≠ []) :
    (natural_language_to_sql r).1 = sqlEnvelope ((generatedStatement r).dropLast) ∧
    envPre.isPrefixOf (natural_language_to_sql r).1 = true ∧
    envPost.isSuffixOf (natural_language_to_sql r).1 = true ∧
    ((generatedStatement r).getLast? = some (';') →
      (natural_language_to_sql r).1
        = sqlEnvelope (minusTrailingSemicolon (generatedStatement r))) := by
  have h1 : (natural_language_to_sql r).1
      = envPre ++ (generatedStatement r).dropLast ++ envPost := by
    simp [natural_language_to_sql, generatedStatement, hr]
  refine ⟨h1, ?_, ?_, ?_⟩
  · rw [h1, List.append_assoc]
    exact isPrefixOf_self_append _ _
  · rw [h1]
    exact isSuffixOf_self_append _ _
  · intro hlast
    rw [h1, minusTrailingSemicolon, if_pos hlast]
    rfl

/-- C1 witness: the theorem applied at a concrete generator response whose
statement ends with a semicolon. -/
theorem C1_envelope_invariant_witness :
    (natural_language_to_sql ("SELECT name FROM layers.parks WHERE id > 3;".toList)).1
      = sqlEnvelope (minusTrailingSemicolon
          (generatedStatement ("SELECT name FROM layers.parks WHERE id > 3;".toList))) :=
  (C1_envelope_invariant ("SELECT name FROM layers.parks WHERE id > 3;".toList)
    (by decide)).2.2.2 (by decide)

/-! Claim C4: the id-bearing projection guarantee. -/

/-- C4: when the word id does not occur case-insensitively anywhere in the
fence-stripped statement, the injection text is placed right after the
first occurrence of the SELECT keyword; a statement containing id
(witnessed by a decomposition of its lowercased form) is left unmodified;
and the case-insensitive occurrence check is exactly the existence of such
a decomposition. -/
theorem C4_id_injection :
    (∀ s a b : Str,
        isSubstrB idLit (lowerStr s) = false →
        s = a ++ selLit ++ b →
        (∀ j, j < a.length → selLit.isPrefixOf (s.drop j) = false) →
        idInject s = a ++ selInjLit ++ b) ∧
    (∀ s : Str, (∃ a b, lowerStr s = a ++ idLit ++ b) → idInject s = s) ∧
    (∀ s : Str, isSubstrB idLit (lowerStr s) = true ↔ ∃ a b, lowerStr s = a ++ idLit ++ b) := by
  refine ⟨?_, ?_, fun s => isSubstrB_iff idLit (lowerStr s)⟩
  · intro s a b hno hs hfirst
    rw [idInject, if_neg (by rw [hno]; exact Bool.false_ne_true)]
    subst hs
    exact replaceFirst_first selLit selInjLit a b hfirst
  · intro s hex
    rw [idInject, if_pos ((isSubstrB_iff _ _).mpr hex)]

/-- C4 witness: injection at a statement with no id, and no-op at a
statement containing id. -/
theorem C4_id_injection_witness :
    idInject ("SELECT name FROM layers.parks;".toList)
      = ([] : Str) ++ selInjLit ++ (" name FROM layers.parks;".toList) ∧
    idInject ("SELECT id FROM layers.parks;".toList)
      = ("SELECT id FROM layers.parks;".toList) :=
  ⟨C4_id_injection.1 ("SELECT name FROM layers.parks;".toList) [] _
      (by decide) (by decide) (fun j hj => by simp at hj),
   C4_id_injection.2.1 ("SELECT id FROM layers.parks;".toList)
      ⟨("select ".toList), (" from layers.parks;".toList), by decide⟩⟩

/-! Claim C6: primary-layer extraction. -/

/-- plOccurs states that the primary-layer comment pattern matches somewhere
in the statement: the literal followed by at least one word character. -/
def plOccurs (s : Str) : Prop :=
  ∃ a c b, s = a ++ plLit ++ c :: b ∧ isWordChar c = true

theorem plOccurs_cons {x : Char} {r : Str} :
    plOccurs (x :: r) ↔
      (∃ c b, x :: r = plLit ++ c :: b ∧ isWordChar c = true) ∨ plOccurs r := by
  constructor
  · rintro ⟨a, c, b, hs, hw⟩
    cases a with
    | nil => exact Or.inl ⟨c, b, by simpa using hs, hw⟩
    | cons y a' =>
      right
      injection hs with h1 h2
      exact ⟨a', c, b, h2, hw⟩
  · rintro (⟨c, b, hs, hw⟩ | ⟨a, c, b, hs, hw⟩)
    · exact ⟨[], c, b, by simpa using hs, hw⟩
    · exact ⟨x :: a, c, b, by simp [hs], hw⟩

theorem extract_none_iff (s : Str) : extract_primary_layer s = none ↔ ¬ plOccurs s := by
  induction s with
  | nil =>
    constructor
    · rintro - ⟨a, c, b, hs, -⟩
      have hlen := congrArg List.length hs
      simp [plLit] at hlen
      omega
    · intro _
      rfl
  | cons x r ih =>
    rw [show extract_primary_layer (x :: r)
          = (if plLit.isPrefixOf (x :: r)
             then (if ((x :: r).drop plLit.length).takeWhile isWordChar = []
                   then extract_primary_layer r
                   else some (((x :: r).drop plLit.length).takeWhile isWordChar))
             else extract_primary_layer r) from rfl]
    cases hpre : plLit.isPrefixOf (x :: r) with
    | false =>
      rw [if_neg Bool.false_ne_true]
      rw [ih, plOccurs_cons]
      constructor
      · intro hnr
        rintro (⟨c, b, hs, -⟩ | ho)
        · have : plLit.isPrefixOf (x :: r) = true :=
            List.isPrefixOf_iff_prefix.mpr ⟨c :: b, hs.symm⟩
          rw [hpre] at this
          exact Bool.false_ne_true this
        · exact hnr ho
      · intro hno ho
        exact hno (Or.inr ho)
    | true =>
      rw [if_pos rfl]
      have hdec : plLit ++ (x :: r).drop plLit.length = x :: r :=
        List.prefix_iff_eq_append.mp (List.isPrefixOf_iff_prefix.mp hpre)
      by_cases hw : ((x :: r).drop plLit.length).takeWhile isWordChar = []
      · rw [if_pos hw, ih, plOccurs_cons]
        constructor
        · intro hnr
          rintro (⟨c, b, hs, hwc⟩ | ho)
          · have hrest : (x :: r).drop plLit.length = c :: b :=
              List.append_cancel_left (by rw [hdec, hs])
            rw [hrest, List.takeWhile_cons_of_pos hwc] at hw
            exact List.cons_ne_nil _ _ hw
          · exact hnr ho
        · intro hno ho
          exact hno (Or.inr ho)
      · rw [if_neg hw]
        constructor
        · intro hsome
          exact absurd hsome (by simp)
        · intro hno
          exfalso
          apply hno
          rw [plOccurs_cons]
          cases hrest : (x :: r).drop plLit.length with
          | nil => exact absurd (by rw [hrest]; rfl) hw
          | cons c b =>
            cases hwc : isWordChar c with
            | false =>
              rw [hrest, List.takeWhile_cons_of_neg (by rw [hwc]; exact Bool.false_ne_true)] at hw
              exact absurd rfl hw
            | true =>
              left
              exact ⟨c, b, by rw [← hdec, hrest], hwc⟩

theorem extract_some_split (s : Str) : ∀ w : Str, extract_primary_layer s = some w →
    w ≠ [] ∧ w.all isWordChar = true ∧
    ∃ a b, s = a ++ plLit ++ w ++ b ∧ ∀ c, b.head? = some c → isWordChar c = false := by
  induction s with
  | nil =>
    intro w h
    exact absurd h (by simp [extract_primary_layer])
  | cons x r ih =>
    intro w h
    rw [show extract_primary_layer (x :: r)
          = (if plLit.isPrefixOf (x :: r)
             then (if ((x :: r).drop plLit.length).takeWhile isWordChar = []
                   then extract_primary_layer r
                   else some (((x :: r).drop plLit.length).takeWhile isWordChar))
             else extract_primary_layer r) from rfl] at h
    by_cases hpre : plLit.isPrefixOf (x :: r) = true
    case neg =>
      rw [if_neg hpre] at h
      rcases ih w h with ⟨h1, h2, a, b, hs, hb⟩
      exact ⟨h1, h2, x :: a, b, by simp [hs], hb⟩
    case pos =>
      rw [if_pos hpre] at h
      have hdec : plLit ++ (x :: r).drop plLit.length = x :: r :=
        List.prefix_iff_eq_append.mp (List.isPrefixOf_iff_prefix.mp hpre)
      by_cases hw : ((x :: r).drop plLit.length).takeWhile isWordChar = []
      · rw [if_pos hw] at h
        rcases ih w h with ⟨h1, h2, a, b, hs, hb⟩
        exact ⟨h1, h2, x :: a, b, by simp [hs], hb⟩
      · rw [if_neg hw] at h
        have hww : w = ((x :: r).drop plLit.length).takeWhile isWordChar :=
          (Option.some.inj h).symm
        refine ⟨by rw [hww]; exact hw, by rw [hww]; exact List.all_takeWhile, ?_⟩
        refine ⟨[], ((x :: r).drop plLit.length).dropWhile isWordChar, ?_, ?_⟩
        · rw [hww, List.nil_append, List.append_assoc,
              List.takeWhile_append_dropWhile, hdec]
        · intro c hc
          exact head?_dropWhile_false hc

/-- C6: in the pipeline the primary layer is extracted from the
fence-stripped statement; the extraction yields None exactly when the
primary-layer comment pattern occurs nowhere, and a successful extraction
yields a nonempty all-word-character identifier appearing verbatim (hence
case-sensitively) right after the comment literal, maximal at that
position. -/
theorem C6_primary_layer :
    (∀ r : Str, r ≠ [] →
        (natural_language_to_sql r).2 = extract_primary_layer (sqlNormalize r)) ∧
    (∀ s : Str, extract_primary_layer s = none ↔ ¬ plOccurs s) ∧
    (∀ s w : Str, extract_primary_layer s = some w →
        w ≠ [] ∧ w.all isWordChar = true ∧
        ∃ a b, s = a ++ plLit ++ w ++ b ∧ ∀ c, b.head? = some c → isWordChar c = false) := by
  refine ⟨?_, extract_none_iff, extract_some_split⟩
  intro r hr
  simp [natural_language_to_sql, hr]

/-- C6 witness: applications of the theorem at concrete statements, with a
mixed-case identifier extracted verbatim. -/
theorem C6_primary_layer_witness :
    ((natural_language_to_sql ("-- primary_layer: Parks\nSELECT id FROM layers.parks;".toList)).2
        = extract_primary_layer
            (sqlNormalize ("-- primary_layer: Parks\nSELECT id FROM layers.parks;".toList))) ∧
    (¬ plOccurs ("SELECT id FROM layers.parks;".toList)) ∧
    (("Parks".toList) ≠ [] ∧ ("Parks".toList).all isWordChar = true ∧
      ∃ a b, ("-- primary_layer: Parks\nSELECT 1;".toList)
          = a ++ plLit ++ ("Parks".toList) ++ b ∧
        ∀ c, b.head? = some c → isWordChar c = false) :=
  ⟨C6_primary_layer.1 ("-- primary_layer: Parks\nSELECT id FROM layers.parks;".toList)
      (by decide),
   (C6_primary_layer.2.1 ("SELECT id FROM layers.parks;".toList)).mp (by decide),
   C6_primary_layer.2.2 ("-- primary_layer: Parks\nSELECT 1;".toList) ("Parks".toList)
      (by decide)⟩

/-! Claim C10: parse_ollama_response collapses to the simple normalizer. -/

/-- C10: for every input, parse_ollama_response equals the simpler
normalizer that strips a fence and directly JSON-parses the result, raising
on parse failure: every success comes from the direct parse (the
response-field extraction path never returns a value, because the except
branch re-parses the very string that just failed), and a wrapper object
that does parse is returned as-is without extraction. -/
theorem C10_refinement (r : Str) :
    parse_ollama_response r = simpleNormalize r ∧
    (∀ v, parse_ollama_response r = Except.ok v → jsonLoads (cleanJson r) = some v) ∧
    (∀ kvs, jsonLoads (cleanJson r) = some (Json.obj kvs) →
        parse_ollama_response r = Except.ok (Json.obj kvs)) := by
  have hmain : parse_ollama_response r = simpleNormalize r := by
    rw [parse_ollama_response]
    cases h : jsonLoads (cleanJson r) with
    | none => simp [parse_ollama_core, simpleNormalize, h]
    | some v => simp [parse_ollama_core, simpleNormalize, h]
  refine ⟨hmain, ?_, ?_⟩
  · intro v hv
    rw [hmain, simpleNormalize] at hv
    cases h : jsonLoads (cleanJson r) with
    | none => rw [h] at hv; exact absurd hv (by simp)
    | some w => rw [h] at hv; simp only [Except.ok.injEq] at hv; rw [hv]
  · intro kvs h
    rw [hmain, simpleNormalize, h]

/-- C10 witness: a wrapper object that parses directly is returned as-is,
with no extraction from its response field. -/
theorem C10_refinement_witness :
    parse_ollama_response ("\x7b\"response\": \"hello\"\x7d".toList)
      = Except.ok (Json.obj [(("response".toList), Json.str ("hello".toList))]) :=
  (C10_refinement ("\x7b\"response\": \"hello\"\x7d".toList)).2.2
    [(("response".toList), Json.str ("hello".toList))] (by rfl)

/-! Claim C2: the ordered normalization chain and its error condition. -/

/-- json_object_locatable formalizes the success condition of claim C2: a JSON
object is located either by the direct parse of the fence-stripped text, or
by parsing that text as a wrapper object bearing a response field and
parsing the first-brace-to-last-brace slice of the text of that field. -/
def json_object_locatable (r : Str) : Prop :=
  (∃ kvs, jsonLoads (cleanJson r) = some (Json.obj kvs)) ∨
  (∃ kvs txt kvs2, jsonLoads (cleanJson r) = some (Json.obj kvs) ∧
      dictGet kvs ("response".toList) = some (Json.str txt) ∧
      jsonLoads ((txt.take (pyRfind txt ('\x7d') + 1).toNat).drop (pyFind txt ('\x7b')).toNat)
        = some (Json.obj kvs2))

/-- C2 counterexample: on the input consisting of a JSON array, neither path
locates a JSON object, yet parse_ollama_response does not raise the
unparsable-response error: the claimed equivalence fails at this input. -/
theorem C2_counterexample :
    ¬ (isErr (parse_ollama_response ("[1, 2]".toList)) = true
        ↔ ¬ json_object_locatable ("[1, 2]".toList)) := by
  intro hiff
  have hnl : ¬ json_object_locatable ("[1, 2]".toList) := by
    rintro (⟨kvs, hk⟩ | ⟨kvs, txt, kvs2, hk, -, -⟩) <;>
    · rw [show jsonLoads (cleanJson ("[1, 2]".toList))
            = some (Json.arr [Json.num 1, Json.num 2]) from rfl] at hk
      exact Json.noConfusion (Option.some.inj hk)
  have hbad := hiff.mpr hnl
  rw [show isErr (parse_ollama_response ("[1, 2]".toList)) = false from rfl] at hbad
  exact Bool.false_ne_true hbad

/-- C2 amended: the normalizer strips the fence and runs the ordered chain
as described, but the direct parse accepts any JSON value, not only
objects: the unparsable-response error is raised exactly when the
fence-stripped text is not valid JSON, and any parsed value (object or
not) is returned as-is. -/
theorem C2_amended (r : Str) :
    (isErr (parse_ollama_response r) = true ↔ jsonLoads (cleanJson r) = none) ∧
    (∀ v, jsonLoads (cleanJson r) = some v → parse_ollama_response r = Except.ok v) := by
  constructor
  · cases h : jsonLoads (cleanJson r) with
    | none => simp [parse_ollama_response, parse_ollama_core, h, isErr]
    | some v => simp [parse_ollama_response, parse_ollama_core, h, isErr]
  · intro v h
    simp [parse_ollama_response, parse_ollama_core, h]

/-- C2 amended witness: a parsed object is returned as-is. -/
theorem C2_amended_witness :
    parse_ollama_response ("\x7b\"a\": 1\x7d".toList)
      = Except.ok (Json.obj [(("a".toList), Json.num 1)]) :=
  (C2_amended ("\x7b\"a\": 1\x7d".toList)).2 (Json.obj [(("a".toList), Json.num 1)]) (by rfl)

/-! Claim C3: the fail-open policy of the router. -/

theorem routeCore_ok_shape (r i : Str) (h : routeCore r = Except.ok i) :
    ∃ x, i = finalizeIntent x := by
  unfold routeCore at h
  split at h
  · exact absurd h (by simp)
  · split at h
    · exact absurd h (by simp)
    · split at h
      · exact absurd h (by simp)
      · simp only [Except.ok.injEq] at h
        exact ⟨_, h.symm⟩

theorem finalizeIntent_mem (i : Str) :
    finalizeIntent i = ("ACTION".toList) ∨ finalizeIntent i = ("FILTER".toList) ∨
      finalizeIntent i = ("HELP".toList) := by
  unfold finalizeIntent
  split_ifs with h
  · exact h
  · left
    rfl

/-- C3: route_by_intent never raises (it is a total function of the gateway
outcome), returns ACTION whenever the gateway call failed or the
normalization body raised, and its result is always one of ACTION, FILTER,
HELP. -/
theorem C3_fail_open (gw : Except PyErr Str) :
    (route_by_intent gw = ("ACTION".toList) ∨ route_by_intent gw = ("FILTER".toList) ∨
      route_by_intent gw = ("HELP".toList)) ∧
    (∀ e, gw = Except.error e → route_by_intent gw = ("ACTION".toList)) ∧
    (∀ r e, gw = Except.ok r → routeCore r = Except.error e →
      route_by_intent gw = ("ACTION".toList)) := by
  refine ⟨?_, ?_, ?_⟩
  · cases gw with
    | error e => left; rfl
    | ok r =>
      cases h : routeCore r with
      | error e => left; simp [route_by_intent, h]
      | ok i =>
        rcases routeCore_ok_shape r i h with ⟨x, hx⟩
        have hri : route_by_intent (Except.ok r) = i := by simp [route_by_intent, h]
        rw [hri, hx]
        exact finalizeIntent_mem x
  · intro e he
    subst he
    rfl
  · intro r e hok herr
    subst hok
    simp [route_by_intent, herr]

/-- C3 witness: the theorem applied at a failing gateway and at a response
whose normalization raises (a JSON string parses, then the subscript raises
TypeError). -/
theorem C3_fail_open_witness :
    route_by_intent (Except.error PyErr.httpError) = ("ACTION".toList) ∧
    route_by_intent (Except.ok ("\"abc\"".toList)) = ("ACTION".toList) :=
  ⟨(C3_fail_open (Except.error PyErr.httpError)).2.1 PyErr.httpError rfl,
   (C3_fail_open (Except.ok ("\"abc\"".toList))).2.2 ("\"abc\"".toList) PyErr.typeError
     rfl (by rfl)⟩

/-! Claim C5: classification-word normalization. -/

/-- C5: the three reference inputs classify to FILTER, HELP (via
quoted-capital-word extraction) and ACTION; quoted extraction applies
whenever the marker phrase occurs and a quoted uppercase word is found;
otherwise the first whitespace-delimited token is taken and uppercased; and
the final step strips every non-alphabetic character and defaults to ACTION
(without failing) on anything outside the three intents. -/
theorem C5_classification :
    route_by_intent (Except.ok ("FILTER".toList)) = ("FILTER".toList) ∧
    route_by_intent (Except.ok ("...then the output would be \x27HELP\x27".toList))
      = ("HELP".toList) ∧
    route_by_intent (Except.ok ("banana".toList)) = ("ACTION".toList) ∧
    (∀ t w, isSubstrB phraseLit (lowerStr t) = true → quotedUpperSearch t = some w →
        intent_from_text t = Except.ok w) ∧
    (∀ t tok rest, isSubstrB phraseLit (lowerStr t) = false → t ≠ [] →
        wsplit t = tok :: rest → intent_from_text t = Except.ok (upperStr tok)) ∧
    (∀ i, finalizeIntent i = i.filter Char.isAlpha ∨ finalizeIntent i = ("ACTION".toList)) ∧
    (∀ i, i.filter Char.isAlpha ≠ ("ACTION".toList) →
        i.filter Char.isAlpha ≠ ("FILTER".toList) →
        i.filter Char.isAlpha ≠ ("HELP".toList) → finalizeIntent i = ("ACTION".toList)) := by
  refine ⟨by decide, by decide, by decide, ?_, ?_, ?_, ?_⟩
  · intro t w hph hq
    rw [intent_from_text, if_pos hph, hq]
  · intro t tok rest hph ht hsp
    rw [intent_from_text, if_neg (by rw [hph]; exact Bool.false_ne_true), firstTokenUpper,
        if_neg ht, hsp]
  · intro i
    unfold finalizeIntent
    split_ifs with h
    · left; rfl
    · right; rfl
  · intro i h1 h2 h3
    unfold finalizeIntent
    split_ifs with h
    · rcases h with h | h | h
      exacts [absurd h h1, absurd h h2, absurd h h3]
    · rfl

/-- C5 witness: the general normalization conjuncts applied at concrete
texts. -/
theorem C5_classification_witness :
    intent_from_text ("...then the output would be \x27HELP\x27".toList)
      = Except.ok ("HELP".toList) ∧
    intent_from_text ("filter now".toList) = Except.ok (upperStr ("filter".toList)) ∧
    finalizeIntent ("BANANA".toList) = ("ACTION".toList) :=
  ⟨C5_classification.2.2.2.1 ("...then the output would be \x27HELP\x27".toList)
      ("HELP".toList) (by decide) (by decide),
   C5_classification.2.2.2.2.1 ("filter now".toList) ("filter".toList) [("now".toList)]
      (by decide) (by decide) (by decide),
   C5_classification.2.2.2.2.2.2 ("BANANA".toList) (by decide) (by decide) (by decide)⟩

/-! Claims C7 and C8: cluster-state post-processing. -/

theorem dictGet_dictSet_self (kvs : List (Str × Json)) (k : Str) (v : Json) :
    dictGet (dictSet kvs k v) k = some v := by
  induction kvs with
  | nil => simp [dictSet, dictGet]
  | cons p r ih =>
    obtain ⟨k0, v0⟩ := p
    by_cases h : k0 = k
    · subst h
      simp [dictSet, dictGet]
    · simp [dictSet, dictGet, h, ih]

theorem stGet_stSet_str (st : CState) (L : Str) (b : Bool) :
    stGet (stSet st (Json.str L) b) (Json.str L) = some b := by
  induction st with
  | nil => simp [stSet, stGet, beqJson]
  | cons p r ih =>
    obtain ⟨k0, b0⟩ := p
    by_cases h : beqJson k0 (Json.str L) = true
    · simp [stSet, stGet, h]
    · simp [stSet, stGet, h, ih]

/-- C7: a CLUSTER command with action ADD sets the cluster state of its
layer to true and returns the command unchanged, so no restore_original is
attached; with action REMOVE it sets the state to false and the returned
command carries restore_original with the same layer and action ADD. -/
theorem C7_cluster_actions :
    (∀ (kvs pkvs : List (Str × Json)) (st : CState) (L : Str),
        dictGet kvs ("intent".toList) = some (Json.str ("CLUSTER".toList)) →
        dictGet kvs ("parameters".toList) = some (Json.obj pkvs) →
        pyGet pkvs ("action".toList) = Json.str ("ADD".toList) →
        pyGet pkvs ("layer".toList) = Json.str L →
        handle_cluster_action (Json.obj kvs) st
            = Except.ok (Json.obj kvs, stSet st (Json.str L) true) ∧
          stGet (stSet st (Json.str L) true) (Json.str L) = some true) ∧
    (∀ (kvs pkvs : List (Str × Json)) (st : CState) (L : Str),
        dictGet kvs ("intent".toList) = some (Json.str ("CLUSTER".toList)) →
        dictGet kvs ("parameters".toList) = some (Json.obj pkvs) →
        pyGet pkvs ("action".toList) = Json.str ("REMOVE".toList) →
        pyGet pkvs ("layer".toList) = Json.str L →
        handle_cluster_action (Json.obj kvs) st
            = Except.ok
                (Json.obj (dictSet kvs ("restore_original".toList)
                  (Json.obj [(("layer".toList), Json.str L),
                             (("action".toList), Json.str ("ADD".toList))])),
                 stSet st (Json.str L) false) ∧
          stGet (stSet st (Json.str L) false) (Json.str L) = some false ∧
          dictGet (dictSet kvs ("restore_original".toList)
              (Json.obj [(("layer".toList), Json.str L),
                         (("action".toList), Json.str ("ADD".toList))]))
              ("restore_original".toList)
            = some (Json.obj [(("layer".toList), Json.str L),
                              (("action".toList), Json.str ("ADD".toList))])) := by
  constructor
  · intro kvs pkvs st L hi hp ha hl
    refine ⟨?_, stGet_stSet_str st L true⟩
    simp at hi hp ha hl
    have hgi : pyGet kvs ("intent".toList) = Json.str ("CLUSTER".toList) := by
      simp [pyGet, hi]
    have hpp : clusterParams kvs = Except.ok pkvs := by
      simp [clusterParams, hp]
    simp at hgi hpp
    simp [handle_cluster_action, intentIsCluster, handle_cluster_core, hgi, hpp, ha, hl,
          beqJson, hashableJson]
  · intro kvs pkvs st L hi hp ha hl
    refine ⟨?_, stGet_stSet_str st L false, dictGet_dictSet_self _ _ _⟩
    simp at hi hp ha hl
    have hgi : pyGet kvs ("intent".toList) = Json.str ("CLUSTER".toList) := by
      simp [pyGet, hi]
    have hpp : clusterParams kvs = Except.ok pkvs := by
      simp [clusterParams, hp]
    simp at hgi hpp
    simp [handle_cluster_action, intentIsCluster, handle_cluster_core, hgi, hpp, ha, hl,
          beqJson, hashableJson]

/-- pkvsAddF / kvsAddF: the parsed CLUSTER/ADD command on layer fountains. -/
def pkvsAddF : List (Str × Json) :=
  [(("action".toList), Json.str ("ADD".toList)),
   (("layer".toList), Json.str ("fountains".toList))]

/-- kvsAddF is the CLUSTER/ADD command object. -/
def kvsAddF : List (Str × Json) :=
  [(("intent".toList), Json.str ("CLUSTER".toList)),
   (("parameters".toList), Json.obj pkvsAddF)]

/-- pkvsRemF / kvsRemF: the parsed CLUSTER/REMOVE command on layer
fountains. -/
def pkvsRemF : List (Str × Json) :=
  [(("action".toList), Json.str ("REMOVE".toList)),
   (("layer".toList), Json.str ("fountains".toList))]

/-- kvsRemF is the CLUSTER/REMOVE command object. -/
def kvsRemF : List (Str × Json) :=
  [(("intent".toList), Json.str ("CLUSTER".toList)),
   (("parameters".toList), Json.obj pkvsRemF)]

/-- restoreF is the expected restore_original directive for fountains. -/
def restoreF : Json :=
  Json.obj [(("layer".toList), Json.str ("fountains".toList)),
            (("action".toList), Json.str ("ADD".toList))]

/-- C7 witness: CLUSTER/ADD then CLUSTER/REMOVE on layer fountains, REMOVE
applied to the state produced by ADD: the final state maps fountains to
false and the returned command carries the restore_original directive. -/
theorem C7_cluster_actions_witness :
    (handle_cluster_action (Json.obj kvsAddF) []
        = Except.ok (Json.obj kvsAddF, stSet [] (Json.str ("fountains".toList)) true) ∧
      stGet (stSet [] (Json.str ("fountains".toList)) true) (Json.str ("fountains".toList))
        = some true) ∧
    (handle_cluster_action (Json.obj kvsRemF) (stSet [] (Json.str ("fountains".toList)) true)
        = Except.ok (Json.obj (dictSet kvsRemF ("restore_original".toList) restoreF),
            stSet (stSet [] (Json.str ("fountains".toList)) true)
              (Json.str ("fountains".toList)) false) ∧
      stGet (stSet (stSet [] (Json.str ("fountains".toList)) true)
          (Json.str ("fountains".toList)) false) (Json.str ("fountains".toList))
        = some false ∧
      dictGet (dictSet kvsRemF ("restore_original".toList) restoreF) ("restore_original".toList)
        = some restoreF) :=
  ⟨C7_cluster_actions.1 kvsAddF pkvsAddF [] ("fountains".toList) rfl rfl rfl rfl,
   C7_cluster_actions.2 kvsRemF pkvsRemF (stSet [] (Json.str ("fountains".toList)) true)
     ("fountains".toList) rfl rfl rfl rfl⟩

/-- C8: a parsed command with any intent other than CLUSTER leaves the
cluster state unchanged and is returned unmodified; and the returned
command never depends on the incoming state, so the state is read at most
to decide the REMOVE restore directive (in fact the directive is attached
without reading it). -/
theorem C8_cluster_frame :
    (∀ (kvs : List (Str × Json)) (st : CState), intentIsCluster kvs = false →
        handle_cluster_action (Json.obj kvs) st = Except.ok (Json.obj kvs, st)) ∧
    (∀ (cmd : Json) (st1 st2 : CState),
        resultCmd (handle_cluster_action cmd st1)
          = resultCmd (handle_cluster_action cmd st2)) := by
  constructor
  · intro kvs st h
    have hobj : handle_cluster_action (Json.obj kvs) st
        = (if intentIsCluster kvs = false then Except.ok (Json.obj kvs, st)
           else handle_cluster_core kvs (clusterParams kvs) st) := rfl
    rw [hobj, h, if_pos rfl]
  · intro cmd st1 st2
    cases cmd with
    | obj kvs =>
      have hobj : ∀ st : CState, handle_cluster_action (Json.obj kvs) st
          = (if intentIsCluster kvs = false then Except.ok (Json.obj kvs, st)
             else handle_cluster_core kvs (clusterParams kvs) st) := fun _ => rfl
      rw [hobj st1, hobj st2]
      by_cases hic : intentIsCluster kvs = false
      · rw [if_pos hic, if_pos hic]
        rfl
      · rw [if_neg hic, if_neg hic]
        cases hp : clusterParams kvs with
        | error e => rfl
        | ok pkvs =>
          simp only [handle_cluster_core]
          split_ifs <;> rfl
    | null => rfl
    | bool b => rfl
    | num n => rfl
    | str s => rfl
    | arr xs => rfl

/-- C8 witness: a PAN command leaves a nonempty cluster state untouched and
comes back unmodified. -/
theorem C8_cluster_frame_witness :
    handle_cluster_action (Json.obj [(("intent".toList), Json.str ("PAN".toList))])
        [(Json.str ("x".toList), true)]
      = Except.ok (Json.obj [(("intent".toList), Json.str ("PAN".toList))],
          [(Json.str ("x".toList), true)]) :=
  C8_cluster_frame.1 [(("intent".toList), Json.str ("PAN".toList))]
    [(Json.str ("x".toList), true)] (by rfl)

/-! Claim C9: fence invariance of the normalizers. -/

/-- wrapFence wraps a generator text in a markdown fence with the given
opening tag. -/
def wrapFence (tag : Str) (t : Str) : Str := tag ++ '\n' :: (t ++ '\n' :: fence3)

/-- C9 counterexample: for the text consisting of one letter followed by a
bare fence marker, wrapping in a sql fence changes the output of the SQL
normalizer (the unfenced normalizer strips the marker of the text), so fence
invariance fails as a universal statement. -/
theorem C9_counterexample :
    ¬ (sqlNormalize (wrapFence fenceSql ("x```".toList)) = sqlNormalize ("x```".toList) ∧
       parse_ollama_response (wrapFence fenceJson ("x```".toList))
         = parse_ollama_response ("x```".toList)) := by
  rintro ⟨h1, -⟩
  exact absurd h1 (by decide)

theorem dropWhile_eq_self_of_head {s : Str}
    (h : ∀ c, s.head? = some c → pyIsSpace c = false) : s.dropWhile pyIsSpace = s := by
  cases s with
  | nil => rfl
  | cons c r => simp [List.dropWhile_cons, h c rfl]

theorem dropTrailWs_eq_self_of_last {s : Str}
    (h : ∀ c, s.getLast? = some c → pyIsSpace c = false) : dropTrailWs s = s := by
  unfold dropTrailWs
  rw [dropWhile_eq_self_of_head (fun c hc => h c (by rw [← List.head?_reverse]; exact hc)),
      List.reverse_reverse]

theorem pyStrip_eq_self {s : Str}
    (h1 : ∀ c, s.head? = some c → pyIsSpace c = false)
    (h2 : ∀ c, s.getLast? = some c → pyIsSpace c = false) : pyStrip s = s := by
  unfold pyStrip
  rw [dropWhile_eq_self_of_head h1]
  exact dropTrailWs_eq_self_of_last h2

theorem reverse_append_nl_fence (x : Str) :
    (x ++ '\n' :: fence3).reverse = fence3 ++ '\n' :: x.reverse := by
  rw [List.reverse_append, List.reverse_cons,
      show fence3.reverse = fence3 from rfl, List.append_assoc]
  rfl

theorem wrapFence_getLast (tag t : Str) :
    (wrapFence tag t).getLast? = some (Char.ofNat 96) := by
  rw [← List.head?_reverse,
      show wrapFence tag t = (tag ++ '\n' :: t) ++ ('\n' :: fence3) from by
        simp [wrapFence],
      reverse_append_nl_fence]
  rfl

theorem wrapFence_sql_head (t : Str) :
    ∀ c, (wrapFence fenceSql t).head? = some c → pyIsSpace c = false := by
  intro c hc
  rw [show (wrapFence fenceSql t).head? = some (Char.ofNat 96) from rfl] at hc
  rw [← Option.some.inj hc]
  decide

theorem wrapFence_json_head (t : Str) :
    ∀ c, (wrapFence fenceJson t).head? = some c → pyIsSpace c = false := by
  intro c hc
  rw [show (wrapFence fenceJson t).head? = some (Char.ofNat 96) from rfl] at hc
  rw [← Option.some.inj hc]
  decide

theorem stripTrailFence_append_nl_fence (x : Str) :
    stripTrailFence (x ++ '\n' :: fence3) = dropTrailWs x := by
  have hrev : (x ++ '\n' :: fence3).reverse = fence3 ++ '\n' :: x.reverse :=
    reverse_append_nl_fence x
  have hsuf : fence3.isSuffixOf (x ++ '\n' :: fence3) = true := by
    rw [show fence3.isSuffixOf (x ++ '\n' :: fence3)
          = fence3.reverse.isPrefixOf (x ++ '\n' :: fence3).reverse from rfl,
        hrev, show fence3.reverse = fence3 from rfl]
    exact isPrefixOf_self_append fence3 ('\n' :: x.reverse)
  unfold stripTrailFence
  rw [if_pos hsuf, hrev, List.drop_left, List.dropWhile_cons_of_pos (by decide)]
  rfl

theorem normalize_wrap (tag t : Str)
    (hh : ∀ c, (wrapFence tag t).head? = some c → pyIsSpace c = false) :
    stripTrailFence (stripLeadFence tag (pyStrip (wrapFence tag t))) = pyStrip t := by
  have hps : pyStrip (wrapFence tag t) = wrapFence tag t :=
    pyStrip_eq_self hh (fun c hc => by
      rw [wrapFence_getLast] at hc
      rw [← Option.some.inj hc]
      decide)
  rw [hps]
  have hpre : tag.isPrefixOf (wrapFence tag t) = true := by
    rw [wrapFence]
    exact isPrefixOf_self_append tag ('\n' :: (t ++ '\n' :: fence3))
  unfold stripLeadFence
  rw [if_pos hpre,
      show (wrapFence tag t).drop tag.length = '\n' :: (t ++ '\n' :: fence3) from by
        rw [wrapFence]; exact List.drop_left tag ('\n' :: (t ++ '\n' :: fence3)),
      List.dropWhile_cons_of_pos (by decide), List.dropWhile_append]
  by_cases hdw : (t.dropWhile pyIsSpace).isEmpty = true
  · rw [if_pos hdw, show ('\n' :: fence3).dropWhile pyIsSpace = fence3 from by decide,
        show stripTrailFence fence3 = [] from by decide]
    unfold pyStrip
    rw [isEmpty_true_iff.mp hdw]
    rfl
  · rw [if_neg hdw, stripTrailFence_append_nl_fence]
    rfl

theorem sqlNormalize_clean (t : Str)
    (hp : fence3.isPrefixOf (pyStrip t) = false)
    (hs : fence3.isSuffixOf (pyStrip t) = false) :
    sqlNormalize t = pyStrip t := by
  unfold sqlNormalize
  have hlead : fenceSql.isPrefixOf (pyStrip t) = false := by
    cases hx : fenceSql.isPrefixOf (pyStrip t) with
    | false => rfl
    | true =>
      exfalso
      have h3 : fence3 <+: fenceSql := ⟨("sql".toList), rfl⟩
      have hpt : fence3.isPrefixOf (pyStrip t) = true :=
        List.isPrefixOf_iff_prefix.mpr (h3.trans (List.isPrefixOf_iff_prefix.mp hx))
      rw [hp] at hpt
      exact Bool.false_ne_true hpt
  unfold stripLeadFence
  rw [if_neg (by rw [hlead]; exact Bool.false_ne_true)]
  unfold stripTrailFence
  rw [if_neg (by rw [hs]; exact Bool.false_ne_true)]

theorem cleanJson_clean (t : Str)
    (hp : fence3.isPrefixOf (pyStrip t) = false) : cleanJson t = pyStrip t := by
  unfold cleanJson
  rw [if_neg (by rw [hp]; exact Bool.false_ne_true)]

theorem cleanJson_wrap (t : Str) : cleanJson (wrapFence fenceJson t) = pyStrip t := by
  have hps : pyStrip (wrapFence fenceJson t) = wrapFence fenceJson t :=
    pyStrip_eq_self (wrapFence_json_head t) (fun c hc => by
      rw [wrapFence_getLast] at hc
      rw [← Option.some.inj hc]
      decide)
  have hpre3 : fence3.isPrefixOf (wrapFence fenceJson t) = true :=
    List.isPrefixOf_iff_prefix.mpr
      ⟨("json".toList) ++ '\n' :: (t ++ '\n' :: fence3), rfl⟩
  unfold cleanJson
  rw [hps, if_pos hpre3, ← hps]
  exact normalize_wrap fenceJson t (wrapFence_json_head t)

/-- C9 amended: fence invariance holds for every generator text whose
stripped form neither begins with a fence marker nor ends with one: for
such texts the SQL normalizer and the structured-object normalizer give the
same result on the fenced and on the unfenced text (a text that itself
begins or ends with a fence marker can be stripped differently, as the
counterexample shows). -/
theorem C9_amended (t : Str)
    (hp : fence3.isPrefixOf (pyStrip t) = false)
    (hs : fence3.isSuffixOf (pyStrip t) = false) :
    sqlNormalize (wrapFence fenceSql t) = sqlNormalize t ∧
    parse_ollama_response (wrapFence fenceJson t) = parse_ollama_response t := by
  constructor
  · rw [sqlNormalize_clean t hp hs]
    show stripTrailFence (stripLeadFence fenceSql (pyStrip (wrapFence fenceSql t)))
      = pyStrip t
    exact normalize_wrap fenceSql t (wrapFence_sql_head t)
  · unfold parse_ollama_response
    rw [cleanJson_wrap t, cleanJson_clean t hp]

/-- C9 amended witness: fence invariance at a concrete fence-marker-free
statement and at a concrete JSON object. -/
theorem C9_amended_witness :
    (sqlNormalize (wrapFence fenceSql ("SELECT 1;".toList))
        = sqlNormalize ("SELECT 1;".toList) ∧
      parse_ollama_response (wrapFence fenceJson ("SELECT 1;".toList))
        = parse_ollama_response ("SELECT 1;".toList)) ∧
    (sqlNormalize (wrapFence fenceSql ("\x7b\"a\": 1\x7d".toList))
        = sqlNormalize ("\x7b\"a\": 1\x7d".toList) ∧
      parse_ollama_response (wrapFence fenceJson ("\x7b\"a\": 1\x7d".toList))
        = parse_ollama_response ("\x7b\"a\": 1\x7d".toList)) :=
  ⟨C9_amended ("SELECT 1;".toList) (by decide) (by decide),
   C9_amended ("\x7b\"a\": 1\x7d".toList) (by decide) (by decide)⟩

end LlmMap
